import Mathlib

/-
Verification of the Ghost Pool AMM accounting engine.

Shallow embedding of the pool contract (GhostPool pool module): the
contract's U512 quantities are modelled as Nat; a U512 arithmetic panic
(underflow, division by zero) aborts the whole transaction in the host, so
it is modelled as an `Except.error` return, as are the `require!` reverts.
Storage mappings become Lean functions, addresses become Nat, and block
time / attached value / external staking rewards are passed as explicit
arguments.  External collaborator calls (CEP-18 transfers, auction
delegate/undelegate) do not touch the pool's own state and are elided.
-/

/-- Error kinds corresponding one-to-one to the contract's revert sites
(`require!` messages, `expect` panics and U512 arithmetic panics). -/
inductive PoolError where
  /-- require "Must send CSPR" -/
  | mustSendCspr
  /-- require "Must send tokens" -/
  | mustSendTokens
  /-- require "Initial liquidity too low" -/
  | initialLiquidityTooLow
  /-- require "Slippage too high" (add_liquidity min_lp_tokens) -/
  | slippageTooHigh
  /-- require "Insufficient LP balance" -/
  | insufficientLpBalance
  /-- require "Amount must be > 0" -/
  | amountMustBePositive
  /-- require "CSPR slippage" -/
  | csprSlippage
  /-- require "Token slippage" -/
  | tokenSlippage
  /-- require "Slippage exceeded" (swaps) -/
  | slippageExceeded
  /-- require "Insufficient liquidity" -/
  | insufficientLiquidity
  /-- require "Insufficient buffer - try smaller amount" -/
  | insufficientBuffer
  /-- expect "Withdrawal not found" -/
  | notFound
  /-- require "Not your withdrawal" -/
  | unauthorized
  /-- require "Already claimed" -/
  | alreadyClaimed
  /-- require "Still unbonding" -/
  | stillUnbonding
  /-- require "Invalid input" (get_amount_out) -/
  | invalidInput
  /-- require "No liquidity" (get_amount_out) -/
  | noLiquidity
  /-- U512 subtraction panic -/
  | underflow
  /-- U512 division-by-zero panic -/
  | divisionByZero
  deriving DecidableEq

/-- Account addresses; the zero address (LP sink) is 0. -/
abbrev Addr := Nat

/-- WithdrawalRequest record from types.rs. -/
structure WithdrawalRequest where
  id : Nat
  user : Addr
  lp_burned : Nat
  cspr_amount : Nat
  token_amount : Nat
  request_time : Nat
  claimable_time : Nat
  claimed : Bool
  deriving DecidableEq

/-- Pool contract storage: reserves, the staked/buffer split of the CSPR
reserve, the fee configuration, LP token supply and balances (the LP token
submodule), and the withdrawal queue. -/
structure PoolState where
  reserve_cspr : Nat
  reserve_token : Nat
  staked_cspr : Nat
  buffer_cspr : Nat
  buffer_target_bps : Nat
  swap_fee_bps : Nat
  protocol_fee_bps : Nat
  minimum_liquidity : Nat
  lp_total_supply : Nat
  lp_balances : Addr → Nat
  withdrawal_counter : Nat
  withdrawals : Nat → Option WithdrawalRequest
  user_withdrawals : Addr → List Nat

/-- Newton/Babylonian iteration of the contract's `sqrt`: while y < x,
set x := y and y := (x + n / x) / 2. -/
def sqrtGo (n x y : Nat) : Nat :=
  if h : y < x then sqrtGo n y ((y + n / y) / 2) else x
termination_by x
decreasing_by exact h

/-- Integer square root (Babylonian method), as in the contract. -/
def sqrt (n : Nat) : Nat :=
  if n = 0 then 0 else sqrtGo n n ((n + 1) / 2)

/-- Pure arithmetic core of `get_amount_out`: constant product formula
with basis-point fee, in floor arithmetic. -/
def get_amount_out_calc (fee_bps amount_in reserve_in reserve_out : Nat) : Nat :=
  let fee_multiplier := 10000 - fee_bps
  let amount_in_with_fee := amount_in * fee_multiplier / 10000
  let numerator := amount_in_with_fee * reserve_out
  let denominator := reserve_in + amount_in_with_fee
  numerator / denominator

/-- The contract's `get_amount_out` with its two `require!` checks. -/
def get_amount_out (fee_bps amount_in reserve_in reserve_out : Nat) :
    Except PoolError Nat :=
  if amount_in = 0 then .error .invalidInput
  else if reserve_in = 0 ∨ reserve_out = 0 then .error .noLiquidity
  else .ok (get_amount_out_calc fee_bps amount_in reserve_in reserve_out)

/-- The contract's `rebalance_stake`: if buffer exceeds the target
fraction of the CSPR reserve, move the excess from buffer to staked
(delegating it to the validator externally); otherwise do nothing. -/
def rebalance_stake (s : PoolState) : PoolState :=
  let target_buffer := s.reserve_cspr * s.buffer_target_bps / 10000
  if target_buffer < s.buffer_cspr then
    { s with buffer_cspr := target_buffer,
             staked_cspr := s.staked_cspr + (s.buffer_cspr - target_buffer) }
  else s

/-- LP token mint (cep18 mint: adds to balance and total supply). -/
def mintLp (s : PoolState) (dst : Addr) (amount : Nat) : PoolState :=
  { s with
    lp_total_supply := s.lp_total_supply + amount,
    lp_balances := fun a => if a = dst then s.lp_balances a + amount else s.lp_balances a }

/-- LP token burn; callers have already checked balance and supply
sufficiency, so straight subtraction is exact here. -/
def burnLp (s : PoolState) (from_addr : Addr) (amount : Nat) : PoolState :=
  { s with
    lp_total_supply := s.lp_total_supply - amount,
    lp_balances := fun a => if a = from_addr then s.lp_balances a - amount else s.lp_balances a }

/-- The contract's `add_liquidity`.  `cspr_amount` is the attached value.
First deposit mints by geometric mean and locks `minimum_liquidity` at the
zero address; later deposits mint at the smaller of the two reserve
ratios.  Returns the minted LP amount. -/
def add_liquidity (s : PoolState) (caller : Addr)
    (cspr_amount token_amount min_lp_tokens : Nat) :
    Except PoolError (PoolState × Nat) :=
  if cspr_amount = 0 then .error .mustSendCspr
  else if token_amount = 0 then .error .mustSendTokens
  else if s.lp_total_supply = 0 then
    let product := cspr_amount * token_amount
    let sqrt_product := sqrt product
    if sqrt_product ≤ s.minimum_liquidity then .error .initialLiquidityTooLow
    else
      let lp_to_mint := sqrt_product - s.minimum_liquidity
      if lp_to_mint < min_lp_tokens then .error .slippageTooHigh
      else
        let s1 := mintLp s 0 s.minimum_liquidity
        let s2 := { s1 with
                    reserve_cspr := s.reserve_cspr + cspr_amount,
                    reserve_token := s.reserve_token + token_amount,
                    buffer_cspr := s.buffer_cspr + cspr_amount }
        .ok (mintLp (rebalance_stake s2) caller lp_to_mint, lp_to_mint)
  else if s.reserve_cspr = 0 ∨ s.reserve_token = 0 then .error .divisionByZero
  else
    let lp_from_cspr := cspr_amount * s.lp_total_supply / s.reserve_cspr
    let lp_from_token := token_amount * s.lp_total_supply / s.reserve_token
    let lp_to_mint := if lp_from_cspr < lp_from_token then lp_from_cspr else lp_from_token
    if lp_to_mint < min_lp_tokens then .error .slippageTooHigh
    else
      let s2 := { s with
                  reserve_cspr := s.reserve_cspr + cspr_amount,
                  reserve_token := s.reserve_token + token_amount,
                  buffer_cspr := s.buffer_cspr + cspr_amount }
      .ok (mintLp (rebalance_stake s2) caller lp_to_mint, lp_to_mint)

/-- The contract's `undelegate_for_withdrawal`: draw the base-asset leg of
a withdrawal first from the buffer, any shortfall from staked (the staked
subtraction would panic if staked were insufficient). -/
def undelegate_for_withdrawal (s : PoolState) (amount : Nat) :
    Except PoolError PoolState :=
  if amount ≤ s.buffer_cspr then
    .ok { s with buffer_cspr := s.buffer_cspr - amount }
  else
    let from_staked := amount - s.buffer_cspr
    if s.staked_cspr < from_staked then .error .underflow
    else .ok { s with buffer_cspr := 0, staked_cspr := s.staked_cspr - from_staked }

/-- The contract's `remove_liquidity`: burns LP, releases the pro-rata
reserves, pays the token leg immediately and queues the CSPR leg as a
time-locked withdrawal record (claimable after 14 hours).  Returns the
withdrawal id. -/
def remove_liquidity (s : PoolState) (caller : Addr)
    (lp_amount min_cspr min_token now : Nat) :
    Except PoolError (PoolState × Nat) :=
  if s.lp_balances caller < lp_amount then .error .insufficientLpBalance
  else if lp_amount = 0 then .error .amountMustBePositive
  else if s.lp_total_supply = 0 then .error .divisionByZero
  else
    let cspr_amount := lp_amount * s.reserve_cspr / s.lp_total_supply
    let token_amount := lp_amount * s.reserve_token / s.lp_total_supply
    if cspr_amount < min_cspr then .error .csprSlippage
    else if token_amount < min_token then .error .tokenSlippage
    else if s.lp_total_supply < lp_amount then .error .underflow
    else if s.reserve_cspr < cspr_amount then .error .underflow
    else if s.reserve_token < token_amount then .error .underflow
    else
      let s1 := burnLp s caller lp_amount
      let s2 := { s1 with
                  reserve_cspr := s1.reserve_cspr - cspr_amount,
                  reserve_token := s1.reserve_token - token_amount }
      match undelegate_for_withdrawal s2 cspr_amount with
      | .error e => .error e
      | .ok s3 =>
        let wid := s3.withdrawal_counter
        let claimable := now + 14 * 60 * 60 * 1000
        let request : WithdrawalRequest :=
          { id := wid, user := caller, lp_burned := lp_amount,
            cspr_amount := cspr_amount, token_amount := token_amount,
            request_time := now, claimable_time := claimable, claimed := false }
        let s4 := { s3 with
                    withdrawal_counter := wid + 1,
                    withdrawals := fun j => if j = wid then some request else s3.withdrawals j,
                    user_withdrawals := fun a =>
                      if a = caller then s3.user_withdrawals a ++ [wid]
                      else s3.user_withdrawals a }
        .ok (s4, wid)

/-- State after marking a stored withdrawal record as claimed. -/
def setClaimed (s : PoolState) (withdrawal_id : Nat) (request : WithdrawalRequest) :
    PoolState :=
  { s with withdrawals := fun j =>
      if j = withdrawal_id then some { request with claimed := true }
      else s.withdrawals j }

/-- The contract's `claim_withdrawal`: ownership, single-claim and
unbonding-time checks, then mark claimed and pay out the CSPR leg. -/
def claim_withdrawal (s : PoolState) (caller : Addr) (withdrawal_id now : Nat) :
    Except PoolError (PoolState × Nat) :=
  match s.withdrawals withdrawal_id with
  | none => .error .notFound
  | some request =>
    if request.user ≠ caller then .error .unauthorized
    else if request.claimed then .error .alreadyClaimed
    else if now < request.claimable_time then .error .stillUnbonding
    else .ok (setClaimed s withdrawal_id request, request.cspr_amount)

/-- The contract's `swap_cspr_for_token`.  `cspr_in` is the attached
value; the `get_amount_out` require-checks are inlined in source order. -/
def swap_cspr_for_token (s : PoolState) (_caller : Addr)
    (cspr_in min_token_out : Nat) : Except PoolError (PoolState × Nat) :=
  if cspr_in = 0 then .error .mustSendCspr
  else if s.reserve_cspr = 0 ∨ s.reserve_token = 0 then .error .noLiquidity
  else
    let token_out := get_amount_out_calc s.swap_fee_bps cspr_in s.reserve_cspr s.reserve_token
    if token_out < min_token_out then .error .slippageExceeded
    else if s.reserve_token ≤ token_out then .error .insufficientLiquidity
    else
      let s1 := { s with
                  reserve_cspr := s.reserve_cspr + cspr_in,
                  reserve_token := s.reserve_token - token_out,
                  buffer_cspr := s.buffer_cspr + cspr_in }
      .ok (rebalance_stake s1, token_out)

/-- The contract's `swap_token_for_cspr`; the CSPR output must fit in the
unstaked buffer, and the reserve subtraction is a potential U512 panic
site (shown elsewhere to be unreachable for positive reserves). -/
def swap_token_for_cspr (s : PoolState) (_caller : Addr)
    (token_in min_cspr_out : Nat) : Except PoolError (PoolState × Nat) :=
  if token_in = 0 then .error .mustSendTokens
  else if s.reserve_token = 0 ∨ s.reserve_cspr = 0 then .error .noLiquidity
  else
    let cspr_out := get_amount_out_calc s.swap_fee_bps token_in s.reserve_token s.reserve_cspr
    if cspr_out < min_cspr_out then .error .slippageExceeded
    else if s.buffer_cspr < cspr_out then .error .insufficientBuffer
    else if s.reserve_cspr < cspr_out then .error .underflow
    else
      .ok ({ s with
             reserve_cspr := s.reserve_cspr - cspr_out,
             reserve_token := s.reserve_token + token_in,
             buffer_cspr := s.buffer_cspr - cspr_out }, cspr_out)

/-- The contract's `compound`, with the externally queried pending
`rewards` passed in: deduct the protocol fee (sent to treasury), fold the
rest into reserve and buffer, rebalance. -/
def compound (s : PoolState) (rewards : Nat) : Except PoolError (PoolState × Nat) :=
  if rewards = 0 then .ok (s, 0)
  else
    let protocol_fee := rewards * s.protocol_fee_bps / 10000
    if rewards < protocol_fee then .error .underflow
    else
      let rewards_to_pool := rewards - protocol_fee
      let s1 := { s with
                  reserve_cspr := s.reserve_cspr + rewards_to_pool,
                  buffer_cspr := s.buffer_cspr + rewards_to_pool }
      .ok (rebalance_stake s1, rewards_to_pool)

/-- Pool state right after `init`: zero reserves, default fee
configuration (10% buffer target, 0.3% swap fee, 10% protocol fee,
1000 minimum liquidity), empty LP token and withdrawal queue. -/
def initState : PoolState :=
  { reserve_cspr := 0, reserve_token := 0, staked_cspr := 0, buffer_cspr := 0,
    buffer_target_bps := 1000, swap_fee_bps := 30, protocol_fee_bps := 1000,
    minimum_liquidity := 1000, lp_total_supply := 0, lp_balances := fun _ => 0,
    withdrawal_counter := 0, withdrawals := fun _ => none,
    user_withdrawals := fun _ => [] }

/-- One invocation of a public entry point, with its environment inputs
(caller, attached value, block time, queried rewards) made explicit. -/
inductive PoolOp where
  | addLiquidity (caller : Addr) (cspr_amount token_amount min_lp : Nat)
  | removeLiquidity (caller : Addr) (lp_amount min_cspr min_token now : Nat)
  | swapCsprForToken (caller : Addr) (cspr_in min_token_out : Nat)
  | swapTokenForCspr (caller : Addr) (token_in min_cspr_out : Nat)
  | compoundOp (rewards : Nat)
  | claimWithdrawal (caller : Addr) (withdrawal_id now : Nat)

/-- Dispatch one public operation against the pool. -/
def runOp : PoolOp → PoolState → Except PoolError (PoolState × Nat)
  | .addLiquidity caller c t m, s => add_liquidity s caller c t m
  | .removeLiquidity caller lp mc mt now, s => remove_liquidity s caller lp mc mt now
  | .swapCsprForToken caller ci m, s => swap_cspr_for_token s caller ci m
  | .swapTokenForCspr caller ti m, s => swap_token_for_cspr s caller ti m
  | .compoundOp r, s => compound s r
  | .claimWithdrawal caller wid now, s => claim_withdrawal s caller wid now

/-- Transactional semantics of the host: a reverted operation leaves the
pool state untouched. -/
def applyOp (op : PoolOp) (s : PoolState) : PoolState :=
  match runOp op s with
  | .ok (s1, _) => s1
  | .error _ => s

/-- The at-rest partition invariant: staked and buffer CSPR partition the
CSPR reserve. -/
def poolInvariant (s : PoolState) : Prop :=
  s.staked_cspr + s.buffer_cspr = s.reserve_cspr

instance (s : PoolState) : Decidable (poolInvariant s) := by
  unfold poolInvariant; infer_instance

/-- A running pool used in the concrete claim scenarios: reserves 1e9/1e9
with the default 10% of the CSPR side as buffer, LP supply 1e9 held by
account 5. -/
def sPool : PoolState :=
  { initState with
    reserve_cspr := 1000000000, reserve_token := 1000000000,
    staked_cspr := 900000000, buffer_cspr := 100000000,
    lp_total_supply := 1000000000,
    lp_balances := fun a => if a = 5 then 1000000000 else 0 }

/-- State after compounding 100 units of rewards on a fresh pool. -/
def c1Post : PoolState := applyOp (.compoundOp 100) initState

/-- State after swapping 1e8 CSPR into `sPool`. -/
def c3Post : PoolState := applyOp (.swapCsprForToken 9 100000000 0) sPool

/-- An over-buffered pool right after a deposit whose base leg all entered
the buffer (reserve jumped from 1e9 to 1.1e9). -/
def rbDemo : PoolState :=
  { initState with
    reserve_cspr := 1100000000,
    staked_cspr := 900000000, buffer_cspr := 200000000 }

/-- A pending withdrawal record owned by account 7. -/
def c5Record : WithdrawalRequest :=
  { id := 0, user := 7, lp_burned := 10, cspr_amount := 100, token_amount := 50,
    request_time := 0, claimable_time := 50400000, claimed := false }

/-- A pool whose withdrawal ledger holds exactly `c5Record` under id 0. -/
def c5Pool : PoolState :=
  { initState with
    withdrawal_counter := 1,
    withdrawals := fun j => if j = 0 then some c5Record else none }

/-- A pool with a fully staked CSPR side (empty buffer). -/
def c6Pool : PoolState :=
  { initState with
    reserve_cspr := 1000000000, reserve_token := 1000000000,
    staked_cspr := 1000000000, buffer_cspr := 0 }

/-- State after the first deposit of (1e9, 1e9) into an empty pool. -/
def c9Mid : PoolState := applyOp (.addLiquidity 1 1000000000 1000000000 0) initState

/-- State after a proportional deposit of (1e6, 1e6) into `sPool`. -/
def c9wMid : PoolState := applyOp (.addLiquidity 5 1000000 1000000 0) sPool

/-- State after immediately removing the LP minted by that deposit. -/
def c9wPost : PoolState := applyOp (.removeLiquidity 5 1000000 0 0 0) c9wMid

/-- The withdrawal record produced by that removal. -/
def c9wRec : WithdrawalRequest :=
  { id := 0, user := 5, lp_burned := 1000000, cspr_amount := 1000000,
    token_amount := 1000000, request_time := 0, claimable_time := 50400000,
    claimed := false }

/-- State after an imbalanced deposit of (1000, 1) into `sPool` (priced at
the smaller ratio, minting a single LP unit). -/
def c9xMid : PoolState := applyOp (.addLiquidity 5 1000 1 0) sPool

/-- State after immediately removing that single LP unit. -/
def c9xPost : PoolState := applyOp (.removeLiquidity 5 1 0 0 0) c9xMid

/-! ### Square-root loop correctness -/

/-- The contract's Babylonian loop coincides with the iteration underlying
`Nat.sqrt`. -/
theorem sqrtGo_eq_iter (n : Nat) : ∀ x, sqrtGo n x ((x + n / x) / 2) = Nat.sqrt.iter n x := by
  intro x
  induction x using Nat.strong_induction_on with
  | _ x ih =>
    rw [sqrtGo]
    unfold Nat.sqrt.iter
    by_cases h : (x + n / x) / 2 < x
    · simp only [dif_pos h, if_pos h]
      exact ih _ h
    · simp only [dif_neg h, if_neg h]

/-- The contract's `sqrt` computes the integer square root. -/
theorem sqrt_eq_natSqrt (n : Nat) : sqrt n = Nat.sqrt n := by
  unfold sqrt
  by_cases h0 : n = 0
  · simp [h0]
  · have hn : 0 < n := Nat.pos_of_ne_zero h0
    have h1 : (n + 1) / 2 = (n + n / n) / 2 := by rw [Nat.div_self hn]
    rw [if_neg h0, h1, sqrtGo_eq_iter]
    exact Nat.eq_sqrt.mpr ⟨Nat.sqrt.iter_sq_le n n, Nat.sqrt.lt_iter_succ_sq n n (by nlinarith)⟩

/-- Concrete value used by the first-deposit scenario. -/
theorem sqrt_e18 : sqrt 1000000000000000000 = 1000000000 := by
  rw [sqrt_eq_natSqrt]
  exact (Nat.eq_sqrt.mpr (by norm_num)).symm

/-! ### Constant-product arithmetic lemmas -/

/-- Division bound: a quotient is at most any factor bound of the
dividend. -/
theorem natDiv_le_of_le_mul {a b c : Nat} (h : a ≤ c * b) : a / b ≤ c := by
  rcases Nat.eq_zero_or_pos b with hb | hb
  · simp [hb]
  · calc a / b ≤ c * b / b := Nat.div_le_div_right h
    _ = c := Nat.mul_div_cancel c hb

/-- The fee-reduced input never exceeds the raw input. -/
theorem amm_fee_le (fee a : Nat) : a * (10000 - fee) / 10000 ≤ a :=
  natDiv_le_of_le_mul (Nat.mul_le_mul_left a (Nat.sub_le _ _))

/-- The swap output is strictly below the outgoing reserve. -/
theorem amm_out_lt (fee a rin rout : Nat) (h1 : 0 < rin) (h2 : 0 < rout) :
    get_amount_out_calc fee a rin rout < rout := by
  unfold get_amount_out_calc
  set f := a * (10000 - fee) / 10000 with hf
  have hpos : 0 < rin + f := by omega
  rw [Nat.div_lt_iff_lt_mul hpos, Nat.mul_add, Nat.mul_comm rout rin, Nat.mul_comm rout f]
  exact Nat.lt_add_of_pos_left (Nat.mul_pos h1 h2)

/-- Key bound: output times post-trade incoming reserve is at most raw
input times outgoing reserve. -/
theorem amm_out_key (fee a rin rout : Nat) (h1 : 0 < rin) (h2 : 0 < rout) :
    get_amount_out_calc fee a rin rout * (rin + a) ≤ a * rout := by
  have hlt := amm_out_lt fee a rin rout h1 h2
  unfold get_amount_out_calc at hlt ⊢
  set f := a * (10000 - fee) / 10000 with hf
  set out := f * rout / (rin + f) with hout
  have hfle : f ≤ a := amm_fee_le fee a
  have hA : out * (rin + f) ≤ f * rout := Nat.div_mul_le_self _ _
  have hB : out ≤ rout := Nat.le_of_lt hlt
  calc out * (rin + a) = out * (rin + f) + out * (a - f) := by
        rw [← Nat.mul_add]; congr 1; omega
    _ ≤ f * rout + rout * (a - f) := by
        refine Nat.add_le_add hA ?_
        exact Nat.mul_le_mul_right _ hB
    _ = rout * (f + (a - f)) := by rw [Nat.mul_comm f rout, ← Nat.mul_add]
    _ = a * rout := by rw [Nat.mul_comm]; congr 1; omega

/-- Fee-funded constant-product invariant: the reserve product does not
decrease when `a` units enter against the `rin` side. -/
theorem amm_product (fee a rin rout : Nat) (h1 : 0 < rin) (h2 : 0 < rout) :
    rin * rout ≤ (rin + a) * (rout - get_amount_out_calc fee a rin rout) := by
  have hkey := amm_out_key fee a rin rout h1 h2
  set out := get_amount_out_calc fee a rin rout with hout
  rw [Nat.mul_sub_left_distrib]
  refine Nat.le_sub_of_add_le ?_
  have h5 : (rin + a) * out ≤ a * rout := by rw [Nat.mul_comm]; exact hkey
  nlinarith

/-- Monotonicity of `x ↦ x * rout / (rin + x)` in floor arithmetic. -/
theorem amm_frac_mono (rin rout x1 x2 : Nat) (h : x1 ≤ x2) :
    x1 * rout / (rin + x1) ≤ x2 * rout / (rin + x2) := by
  rcases Nat.eq_zero_or_pos (rin + x2) with h0 | hpos
  · have hx2 : x2 = 0 := by omega
    have hx1 : x1 = 0 := by omega
    simp [hx1, hx2]
  · rw [Nat.le_div_iff_mul_le hpos]
    have hA : x1 * rout / (rin + x1) * (rin + x1) ≤ x1 * rout := Nat.div_mul_le_self _ _
    have hB : x1 * rout / (rin + x1) ≤ rout := natDiv_le_of_le_mul (by nlinarith)
    calc x1 * rout / (rin + x1) * (rin + x2)
        = x1 * rout / (rin + x1) * (rin + x1) + x1 * rout / (rin + x1) * (x2 - x1) := by
          rw [← Nat.mul_add]; congr 1; omega
      _ ≤ x1 * rout + rout * (x2 - x1) := by
          refine Nat.add_le_add hA ?_
          exact Nat.mul_le_mul_right _ hB
      _ = rout * (x1 + (x2 - x1)) := by rw [Nat.mul_comm x1 rout, ← Nat.mul_add]
      _ = x2 * rout := by rw [Nat.mul_comm]; congr 1; omega

/-- The swap output is monotone (non-strictly) in the input amount. -/
theorem amm_mono (fee a1 a2 rin rout : Nat) (h : a1 ≤ a2) :
    get_amount_out_calc fee a1 rin rout ≤ get_amount_out_calc fee a2 rin rout := by
  unfold get_amount_out_calc
  exact amm_frac_mono rin rout _ _
    (Nat.div_le_div_right (Nat.mul_le_mul_right _ h))

/-! ### Rebalance and per-operation invariant lemmas -/

/-- Rebalancing never touches the CSPR reserve. -/
theorem rebalance_reserve_cspr (s : PoolState) :
    (rebalance_stake s).reserve_cspr = s.reserve_cspr := by
  simp only [rebalance_stake]
  split_ifs <;> rfl

/-- Rebalancing never touches the token reserve. -/
theorem rebalance_reserve_token (s : PoolState) :
    (rebalance_stake s).reserve_token = s.reserve_token := by
  simp only [rebalance_stake]
  split_ifs <;> rfl

/-- Rebalancing moves CSPR between staked and buffer without changing
their sum. -/
theorem rebalance_sum (s : PoolState) :
    (rebalance_stake s).staked_cspr + (rebalance_stake s).buffer_cspr =
      s.staked_cspr + s.buffer_cspr := by
  simp only [rebalance_stake]
  split_ifs with h
  · dsimp only
    omega
  · rfl

/-- Rebalancing never decreases the staked amount. -/
theorem rebalance_staked_le (s : PoolState) :
    s.staked_cspr ≤ (rebalance_stake s).staked_cspr := by
  simp only [rebalance_stake]
  split_ifs with h
  · dsimp only
    omega
  · exact Nat.le_refl _

/-- A successful `undelegate_for_withdrawal` removes exactly `amount`
from the staked/buffer total and touches nothing else. -/
theorem undelegate_sum (s : PoolState) (amount : Nat) (s3 : PoolState)
    (h : undelegate_for_withdrawal s amount = .ok s3) :
    s3.staked_cspr + s3.buffer_cspr + amount = s.staked_cspr + s.buffer_cspr ∧
      s3.reserve_cspr = s.reserve_cspr ∧ s3.reserve_token = s.reserve_token ∧
      s3.withdrawal_counter = s.withdrawal_counter ∧
      s3.withdrawals = s.withdrawals ∧ s3.user_withdrawals = s.user_withdrawals ∧
      s3.lp_total_supply = s.lp_total_supply := by
  simp only [undelegate_for_withdrawal] at h
  split_ifs at h with h1 h2 <;>
    simp only [reduceCtorEq, Except.ok.injEq] at h
  · subst h
    refine ⟨by dsimp only; omega, rfl, rfl, rfl, rfl, rfl, rfl⟩
  · subst h
    refine ⟨by dsimp only; omega, rfl, rfl, rfl, rfl, rfl, rfl⟩

/-- `add_liquidity` preserves the staked/buffer partition of the CSPR
reserve. -/
theorem add_liquidity_inv (s : PoolState) (caller : Addr) (c t m : Nat)
    (s1 : PoolState) (lp : Nat)
    (h : add_liquidity s caller c t m = .ok (s1, lp))
    (hinv : poolInvariant s) : poolInvariant s1 := by
  unfold poolInvariant at hinv ⊢
  simp only [add_liquidity] at h
  split_ifs at h with h1 h2 h3 h4 h5 h6 h7 <;>
    simp only [reduceCtorEq, Except.ok.injEq, Prod.mk.injEq] at h
  all_goals obtain ⟨h8, h9⟩ := h
  all_goals subst h8
  all_goals simp only [mintLp]
  all_goals rw [rebalance_reserve_cspr, rebalance_sum]
  all_goals dsimp only [mintLp]
  all_goals omega

set_option maxHeartbeats 1000000 in
/-- `remove_liquidity` preserves the staked/buffer partition of the CSPR
reserve. -/
theorem remove_liquidity_inv (s : PoolState) (caller : Addr)
    (lp mc mt now : Nat) (s1 : PoolState) (wid : Nat)
    (h : remove_liquidity s caller lp mc mt now = .ok (s1, wid))
    (hinv : poolInvariant s) : poolInvariant s1 := by
  unfold poolInvariant at hinv ⊢
  simp only [remove_liquidity] at h
  split_ifs at h with h1 h2 h3 h4 h5 h6 h7 h8 <;>
    try simp only [reduceCtorEq] at h
  split at h
  · simp only [reduceCtorEq] at h
  · next s3 heq =>
    simp only [Except.ok.injEq, Prod.mk.injEq] at h
    obtain ⟨h9, h10⟩ := h
    subst h9
    obtain ⟨hsum, hrc, -, -, -, -, -⟩ := undelegate_sum _ _ _ heq
    simp only [burnLp] at hsum hrc
    dsimp only
    omega

/-- `swap_cspr_for_token` preserves the staked/buffer partition of the
CSPR reserve. -/
theorem swap_cspr_for_token_inv (s : PoolState) (caller : Addr)
    (ci m : Nat) (s1 : PoolState) (out : Nat)
    (h : swap_cspr_for_token s caller ci m = .ok (s1, out))
    (hinv : poolInvariant s) : poolInvariant s1 := by
  unfold poolInvariant at hinv ⊢
  simp only [swap_cspr_for_token] at h
  split_ifs at h with h1 h2 h3 h4 <;>
    simp only [reduceCtorEq, Except.ok.injEq, Prod.mk.injEq] at h
  obtain ⟨h5, h6⟩ := h
  subst h5
  rw [rebalance_reserve_cspr, rebalance_sum]
  dsimp only
  omega

/-- `swap_token_for_cspr` preserves the staked/buffer partition of the
CSPR reserve. -/
theorem swap_token_for_cspr_inv (s : PoolState) (caller : Addr)
    (ti m : Nat) (s1 : PoolState) (out : Nat)
    (h : swap_token_for_cspr s caller ti m = .ok (s1, out))
    (hinv : poolInvariant s) : poolInvariant s1 := by
  unfold poolInvariant at hinv ⊢
  simp only [swap_token_for_cspr] at h
  split_ifs at h with h1 h2 h3 h4 h5 <;>
    simp only [reduceCtorEq, Except.ok.injEq, Prod.mk.injEq] at h
  obtain ⟨h6, h7⟩ := h
  subst h6
  dsimp only
  omega

/-- `compound` preserves the staked/buffer partition of the CSPR
reserve. -/
theorem compound_inv (s : PoolState) (rewards : Nat)
    (s1 : PoolState) (out : Nat)
    (h : compound s rewards = .ok (s1, out))
    (hinv : poolInvariant s) : poolInvariant s1 := by
  unfold poolInvariant at hinv ⊢
  simp only [compound] at h
  split_ifs at h with h1 h2 <;>
    simp only [reduceCtorEq, Except.ok.injEq, Prod.mk.injEq] at h
  · obtain ⟨h3, h4⟩ := h
    subst h3
    exact hinv
  · obtain ⟨h3, h4⟩ := h
    subst h3
    rw [rebalance_reserve_cspr, rebalance_sum]
    dsimp only
    omega

/-- `claim_withdrawal` touches only the withdrawal ledger, so it
preserves the partition. -/
theorem claim_withdrawal_inv (s : PoolState) (caller : Addr)
    (wid now : Nat) (s1 : PoolState) (out : Nat)
    (h : claim_withdrawal s caller wid now = .ok (s1, out))
    (hinv : poolInvariant s) : poolInvariant s1 := by
  unfold poolInvariant at hinv ⊢
  simp only [claim_withdrawal] at h
  split at h
  · exact absurd h (by simp)
  · split_ifs at h with h1 h2 h3 <;>
      simp only [reduceCtorEq, Except.ok.injEq, Prod.mk.injEq] at h
    obtain ⟨h4, h5⟩ := h
    subst h4
    exact hinv

/-- Rebalancing never touches the LP supply. -/
theorem rebalance_total (s : PoolState) :
    (rebalance_stake s).lp_total_supply = s.lp_total_supply := by
  simp only [rebalance_stake]
  split_ifs <;> rfl

/-- Characterization of a successful `add_liquidity`: how reserves, LP
supply and the minted amount relate to the pre-state. -/
theorem add_liquidity_spec (s : PoolState) (caller : Addr) (c t m : Nat)
    (s1 : PoolState) (lp : Nat)
    (h : add_liquidity s caller c t m = .ok (s1, lp)) :
    c ≠ 0 ∧ t ≠ 0 ∧
    s1.reserve_cspr = s.reserve_cspr + c ∧
    s1.reserve_token = s.reserve_token + t ∧
    ((s.lp_total_supply = 0 ∧ s.minimum_liquidity < sqrt (c * t) ∧
        lp = sqrt (c * t) - s.minimum_liquidity ∧
        s1.lp_total_supply = s.lp_total_supply + s.minimum_liquidity + lp) ∨
      (s.lp_total_supply ≠ 0 ∧ s.reserve_cspr ≠ 0 ∧ s.reserve_token ≠ 0 ∧
        lp ≤ c * s.lp_total_supply / s.reserve_cspr ∧
        lp ≤ t * s.lp_total_supply / s.reserve_token ∧
        s1.lp_total_supply = s.lp_total_supply + lp)) := by
  simp only [add_liquidity] at h
  split_ifs at h with h1 h2 h3 h4 h5 h6 h7 <;>
    simp only [reduceCtorEq, Except.ok.injEq, Prod.mk.injEq] at h
  · obtain ⟨h8, h9⟩ := h
    subst h8
    subst h9
    refine ⟨h1, h2, ?_, ?_, Or.inl ⟨h3, by omega, rfl, ?_⟩⟩
    · simp only [mintLp]
      rw [rebalance_reserve_cspr]
    · simp only [mintLp]
      rw [rebalance_reserve_token]
    · simp only [mintLp]
      rw [rebalance_total]
  · obtain ⟨h8, h9⟩ := h
    subst h8
    subst h9
    refine ⟨h1, h2, ?_, ?_,
      Or.inr ⟨h3, fun hc => h6 (Or.inl hc), fun hc => h6 (Or.inr hc),
        Nat.le_refl _, Nat.le_of_lt h7, ?_⟩⟩
    · simp only [mintLp]
      rw [rebalance_reserve_cspr]
    · simp only [mintLp]
      rw [rebalance_reserve_token]
    · simp only [mintLp]
      rw [rebalance_total]
  · obtain ⟨h8, h9⟩ := h
    subst h8
    subst h9
    refine ⟨h1, h2, ?_, ?_,
      Or.inr ⟨h3, fun hc => h6 (Or.inl hc), fun hc => h6 (Or.inr hc),
        by omega, Nat.le_refl _, ?_⟩⟩
    · simp only [mintLp]
      rw [rebalance_reserve_cspr]
    · simp only [mintLp]
      rw [rebalance_reserve_token]
    · simp only [mintLp]
      rw [rebalance_total]

set_option maxHeartbeats 1000000 in
/-- Characterization of a successful `remove_liquidity`: the withdrawal
id and the queued record it stores. -/
theorem remove_liquidity_spec (s : PoolState) (caller : Addr)
    (lp mc mt now : Nat) (s2 : PoolState) (wid : Nat)
    (h : remove_liquidity s caller lp mc mt now = .ok (s2, wid)) :
    s.lp_total_supply ≠ 0 ∧
    wid = s.withdrawal_counter ∧
    s2.withdrawals wid = some
      { id := wid, user := caller, lp_burned := lp,
        cspr_amount := lp * s.reserve_cspr / s.lp_total_supply,
        token_amount := lp * s.reserve_token / s.lp_total_supply,
        request_time := now, claimable_time := now + 14 * 60 * 60 * 1000,
        claimed := false } := by
  simp only [remove_liquidity] at h
  split_ifs at h with h1 h2 h3 h4 h5 h6 h7 h8 <;>
    try simp only [reduceCtorEq] at h
  split at h
  · simp only [reduceCtorEq] at h
  · next s3 heq =>
    simp only [Except.ok.injEq, Prod.mk.injEq] at h
    obtain ⟨h9, h10⟩ := h
    subst h9
    subst h10
    obtain ⟨-, -, -, hcount, -, -, -⟩ := undelegate_sum _ _ _ heq
    dsimp only [burnLp] at hcount
    refine ⟨h3, hcount, ?_⟩
    dsimp only
    rw [if_pos rfl, hcount]

/-! ### Claim theorems -/

/-- Concrete square root used by the first-deposit scenario, in the form
produced inside `add_liquidity`. -/
theorem sqrt_prod_e9 : sqrt (1000000000 * 1000000000) = 1000000000 := by
  norm_num
  exact sqrt_e18

/-- C1: every public operation that returns successfully preserves the
partition invariant `stakedBase + bufferBase = reserveBase`, assuming it
held in the pre-state (buffer subtractions are guarded, so on success the
buffer never underflows). -/
theorem C1_partition_invariant (op : PoolOp) (s s1 : PoolState) (ret : Nat)
    (h : runOp op s = .ok (s1, ret)) (hinv : poolInvariant s) :
    poolInvariant s1 := by
  cases op <;> simp only [runOp] at h
  case addLiquidity caller c t m => exact add_liquidity_inv s caller c t m s1 ret h hinv
  case removeLiquidity caller lp mc mt now =>
    exact remove_liquidity_inv s caller lp mc mt now s1 ret h hinv
  case swapCsprForToken caller ci m =>
    exact swap_cspr_for_token_inv s caller ci m s1 ret h hinv
  case swapTokenForCspr caller ti m =>
    exact swap_token_for_cspr_inv s caller ti m s1 ret h hinv
  case compoundOp r => exact compound_inv s r s1 ret h hinv
  case claimWithdrawal caller wid now =>
    exact claim_withdrawal_inv s caller wid now s1 ret h hinv

/-- Witness for C1: compounding 100 reward units on a fresh pool succeeds
and preserves the partition invariant. -/
theorem C1_partition_invariant_witness : poolInvariant initState ∧ poolInvariant c1Post :=
  ⟨by decide, C1_partition_invariant (.compoundOp 100) initState c1Post 90 (by rfl) (by decide)⟩

/-- C2 counterexample: the first deposit of (1e9, 1e9) into an empty pool
mints 999_999_000 LP, not the 999_999_999_000 the claim states. -/
theorem C2_counterexample :
    (add_liquidity initState 1 1000000000 1000000000 0).toOption.map Prod.snd =
        some 999999000 ∧
      (999999000 : Nat) ≠ 999999999000 := by
  constructor
  · simp only [add_liquidity, initState, sqrt_prod_e9]
    norm_num [Except.toOption]
  · norm_num

/-- C2 (amended): on an empty pool with minimumLiquidity = 1000, the
deposit (1e9, 1e9) mints `isqrt(1e18) - 1000 = 999_999_000` LP to the
depositor, and the reserves become (1e9, 1e9) afterwards. -/
theorem C2_first_deposit :
    (add_liquidity initState 1 1000000000 1000000000 0).toOption.map
        (fun p => (p.2, p.1.reserve_cspr, p.1.reserve_token, p.1.lp_balances 1)) =
      some (sqrt (1000000000 * 1000000000) - 1000, 1000000000, 1000000000, 999999000) ∧
    sqrt (1000000000 * 1000000000) - 1000 = 999999000 := by
  constructor
  · simp only [add_liquidity, initState, sqrt_prod_e9]
    norm_num [mintLp, rebalance_stake, Except.toOption]
  · rw [sqrt_prod_e9]

/-- C7 counterexample: with reserves (1e9, 1e9) and a 30 bps fee, the
swap output for 1e8 input is 90_661_089, whose leading digits are 90661,
not the 90791 prefix the claim states. -/
theorem C7_counterexample :
    get_amount_out_calc 30 100000000 1000000000 1000000000 = 90661089 ∧
      (90661089 : Nat) / 1000 ≠ 90791 := by
  constructor
  · norm_num [get_amount_out_calc]
  · norm_num

/-- C7 (amended): the quote is exactly
`amountInWithFee * reserveOut / (reserveIn + amountInWithFee)` with
`amountInWithFee = amountIn * (10000 - fee) / 10000` in floor arithmetic;
concretely at reserves (1e9, 1e9) with 30 bps, input 1e8 gives
amountInWithFee = 99_700_000 and output 90_661_089 < 1e8, and after the
swap the token reserve is 1e9 minus that output. -/
theorem C7_quote_formula :
    (∀ fee a rin rout : Nat, get_amount_out_calc fee a rin rout =
        a * (10000 - fee) / 10000 * rout / (rin + a * (10000 - fee) / 10000)) ∧
    100000000 * (10000 - 30) / 10000 = 99700000 ∧
    get_amount_out_calc 30 100000000 1000000000 1000000000 =
      99700000 * 1000000000 / (1000000000 + 99700000) ∧
    get_amount_out_calc 30 100000000 1000000000 1000000000 = 90661089 ∧
    90661089 < 100000000 ∧
    (swap_cspr_for_token sPool 9 100000000 0).toOption.map
        (fun p => (p.2, p.1.reserve_token)) = some (90661089, 1000000000 - 90661089) := by
  refine ⟨fun fee a rin rout => rfl, by norm_num, ?_, ?_, by norm_num, by rfl⟩
  · norm_num [get_amount_out_calc]
  · norm_num [get_amount_out_calc]

/-- C8 counterexample: with the configured 30 bps fee and reserves
(1e9, 1e9), inputs 1 and 2 both produce output 0, so the output is not
strictly increasing in the input. -/
theorem C8_counterexample :
    (1 : Nat) < 2 ∧
      get_amount_out_calc 30 1 1000000000 1000000000 =
        get_amount_out_calc 30 2 1000000000 1000000000 := by
  constructor
  · norm_num
  · norm_num [get_amount_out_calc]

/-- C8 (amended): holding the reserves fixed, the swap output is monotone
(non-strictly, by floor-division plateaus) in the input amount, and for
positive reserves it is always strictly below the outgoing reserve. -/
theorem C8_monotone_bounded :
    (∀ fee a1 a2 rin rout : Nat, a1 ≤ a2 →
        get_amount_out_calc fee a1 rin rout ≤ get_amount_out_calc fee a2 rin rout) ∧
    (∀ fee a rin rout : Nat, 0 < rin → 0 < rout →
        get_amount_out_calc fee a rin rout < rout) :=
  ⟨fun fee a1 a2 rin rout h => amm_mono fee a1 a2 rin rout h,
   fun fee a rin rout h1 h2 => amm_out_lt fee a rin rout h1 h2⟩

/-- Witness for C8: monotonicity and the reserve bound at concrete
inputs. -/
theorem C8_monotone_bounded_witness :
    get_amount_out_calc 30 1000000 1000000000 1000000000 ≤
        get_amount_out_calc 30 2000000 1000000000 1000000000 ∧
      get_amount_out_calc 30 100000000 1000000000 1000000000 < 1000000000 :=
  ⟨C8_monotone_bounded.1 30 1000000 2000000 1000000000 1000000000 (by norm_num),
   C8_monotone_bounded.2 30 100000000 1000000000 1000000000 (by norm_num) (by norm_num)⟩

/-- C3: for every successful swap in either direction on positive
reserves, the reserve product after the trade is at least the product
before it. -/
theorem C3_swap_product (s : PoolState) (caller : Addr) (amount minOut : Nat)
    (s1 : PoolState) (out : Nat)
    (h1 : 0 < s.reserve_cspr) (h2 : 0 < s.reserve_token) :
    (swap_cspr_for_token s caller amount minOut = .ok (s1, out) →
        s.reserve_cspr * s.reserve_token ≤ s1.reserve_cspr * s1.reserve_token) ∧
    (swap_token_for_cspr s caller amount minOut = .ok (s1, out) →
        s.reserve_cspr * s.reserve_token ≤ s1.reserve_cspr * s1.reserve_token) := by
  constructor
  · intro h
    simp only [swap_cspr_for_token] at h
    split_ifs at h with g1 g2 g3 g4 <;>
      simp only [reduceCtorEq, Except.ok.injEq, Prod.mk.injEq] at h
    obtain ⟨h5, h6⟩ := h
    subst h5
    rw [rebalance_reserve_cspr, rebalance_reserve_token]
    dsimp only
    exact amm_product s.swap_fee_bps amount s.reserve_cspr s.reserve_token h1 h2
  · intro h
    simp only [swap_token_for_cspr] at h
    split_ifs at h with g1 g2 g3 g4 g5 <;>
      simp only [reduceCtorEq, Except.ok.injEq, Prod.mk.injEq] at h
    obtain ⟨h5, h6⟩ := h
    subst h5
    dsimp only
    have h9 := amm_product s.swap_fee_bps amount s.reserve_token s.reserve_cspr h2 h1
    calc s.reserve_cspr * s.reserve_token
        = s.reserve_token * s.reserve_cspr := Nat.mul_comm _ _
      _ ≤ (s.reserve_token + amount) *
            (s.reserve_cspr -
              get_amount_out_calc s.swap_fee_bps amount s.reserve_token s.reserve_cspr) := h9
      _ = (s.reserve_cspr -
              get_amount_out_calc s.swap_fee_bps amount s.reserve_token s.reserve_cspr) *
            (s.reserve_token + amount) := Nat.mul_comm _ _

/-- Witness for C3: swapping 1e8 CSPR into the running pool does not
decrease the reserve product. -/
theorem C3_swap_product_witness :
    sPool.reserve_cspr * sPool.reserve_token ≤
      c3Post.reserve_cspr * c3Post.reserve_token :=
  (C3_swap_product sPool 9 100000000 0 c3Post 90661089 (by decide) (by decide)).1 (by rfl)

/-- C4: rebalance computes `target = reserveBase * bufferTargetBps / 10000`;
above target it stakes exactly the excess (buffer settles at target),
at or below target it does nothing, and staked never decreases.
Concretely, a proportional deposit of 1e8 on the 1e9/1e9 pool lands the
reserve at 1.1e9 and the buffer settles at 1.1e8. -/
theorem C4_rebalance :
    (∀ s : PoolState,
      (s.reserve_cspr * s.buffer_target_bps / 10000 < s.buffer_cspr →
        (rebalance_stake s).buffer_cspr = s.reserve_cspr * s.buffer_target_bps / 10000 ∧
          (rebalance_stake s).staked_cspr =
            s.staked_cspr + (s.buffer_cspr - s.reserve_cspr * s.buffer_target_bps / 10000)) ∧
      (s.buffer_cspr ≤ s.reserve_cspr * s.buffer_target_bps / 10000 →
        rebalance_stake s = s) ∧
      s.staked_cspr ≤ (rebalance_stake s).staked_cspr) ∧
    (add_liquidity sPool 2 100000000 100000000 0).toOption.map
        (fun p => (p.1.reserve_cspr, p.1.buffer_cspr, p.1.staked_cspr)) =
      some (1100000000, 110000000, 990000000) := by
  constructor
  · intro s
    refine ⟨?_, ?_, rebalance_staked_le s⟩
    · intro h
      simp only [rebalance_stake]
      rw [if_pos h]
      exact ⟨rfl, rfl⟩
    · intro h
      simp only [rebalance_stake]
      rw [if_neg (by omega)]
  · rfl

/-- Witness for C4: an over-buffered pool at reserve 1.1e9 settles its
buffer at 1.1e8 with the excess staked. -/
theorem C4_rebalance_witness :
    (rebalance_stake rbDemo).buffer_cspr = 110000000 ∧
      (rebalance_stake rbDemo).staked_cspr = 990000000 := by
  obtain ⟨hb, hs⟩ := (C4_rebalance.1 rbDemo).1 (by decide)
  exact ⟨hb, hs⟩

/-- C6: whenever the computed CSPR output clears the slippage bound but
exceeds the current buffer, `swap_token_for_cspr` fails with the
insufficient-buffer error, and (by the transactional semantics) the pool
state is untouched. -/
theorem C6_insufficient_buffer (s : PoolState) (caller : Addr) (ti minOut : Nat)
    (h1 : ti ≠ 0) (h2 : s.reserve_token ≠ 0) (h3 : s.reserve_cspr ≠ 0)
    (h4 : minOut ≤ get_amount_out_calc s.swap_fee_bps ti s.reserve_token s.reserve_cspr)
    (h5 : s.buffer_cspr < get_amount_out_calc s.swap_fee_bps ti s.reserve_token s.reserve_cspr) :
    swap_token_for_cspr s caller ti minOut = .error .insufficientBuffer ∧
      applyOp (.swapTokenForCspr caller ti minOut) s = s := by
  have hmain : swap_token_for_cspr s caller ti minOut = .error .insufficientBuffer := by
    simp only [swap_token_for_cspr]
    rw [if_neg h1, if_neg (by push_neg; exact ⟨h2, h3⟩), if_neg (by omega), if_pos h5]
  exact ⟨hmain, by simp [applyOp, runOp, hmain]⟩

/-- Witness for C6: on a pool with an empty buffer, swapping 1e8 tokens
fails with the insufficient-buffer error. -/
theorem C6_insufficient_buffer_witness :
    swap_token_for_cspr c6Pool 9 100000000 0 = .error .insufficientBuffer :=
  (C6_insufficient_buffer c6Pool 9 100000000 0 (by norm_num) (by decide) (by decide)
    (by decide) (by decide)).1

/-- C10: for positive reserves the swap output is strictly below the
outgoing reserve, so the CSPR reserve subtraction in `swap_token_for_cspr`
can never underflow, and the explicit liquidity check in
`swap_cspr_for_token` is never the binding failure. -/
theorem C10_output_bounds :
    (∀ fee a rin rout : Nat, 0 < rin → 0 < rout →
        get_amount_out_calc fee a rin rout < rout) ∧
    (∀ (s : PoolState) (caller : Addr) (ti minOut : Nat),
        0 < s.reserve_token → 0 < s.reserve_cspr →
        swap_token_for_cspr s caller ti minOut ≠ .error .underflow) ∧
    (∀ (s : PoolState) (caller : Addr) (ci minOut : Nat),
        0 < s.reserve_cspr → 0 < s.reserve_token →
        swap_cspr_for_token s caller ci minOut ≠ .error .insufficientLiquidity) := by
  refine ⟨fun fee a rin rout h1 h2 => amm_out_lt fee a rin rout h1 h2, ?_, ?_⟩
  · intro s caller ti minOut h1 h2 hcon
    simp only [swap_token_for_cspr] at hcon
    split_ifs at hcon with g1 g2 g3 g4 g5 <;>
      simp only [reduceCtorEq, Except.error.injEq] at hcon
    have hlt := amm_out_lt s.swap_fee_bps ti s.reserve_token s.reserve_cspr h1 h2
    omega
  · intro s caller ci minOut h1 h2 hcon
    simp only [swap_cspr_for_token] at hcon
    split_ifs at hcon with g1 g2 g3 g4 <;>
      simp only [reduceCtorEq, Except.error.injEq] at hcon
    have hlt := amm_out_lt s.swap_fee_bps ci s.reserve_cspr s.reserve_token h1 h2
    omega

/-- Witness for C10: the bound and both never-failing checks at concrete
inputs on the running pool. -/
theorem C10_output_bounds_witness :
    get_amount_out_calc 30 123456 1000000000 1000000000 < 1000000000 ∧
      swap_token_for_cspr sPool 9 100000000 0 ≠ .error .underflow ∧
      swap_cspr_for_token sPool 9 100000000 0 ≠ .error .insufficientLiquidity :=
  ⟨C10_output_bounds.1 30 123456 1000000000 1000000000 (by norm_num) (by norm_num),
   C10_output_bounds.2.1 sPool 9 100000000 0 (by decide) (by decide),
   C10_output_bounds.2.2 sPool 9 100000000 0 (by decide) (by decide)⟩

/-- C5: `claim_withdrawal` fails with not-found / unauthorized /
already-claimed / still-unbonding exactly as specified; before
`claimableAt` every claim attempt is rejected; once claimable, the
owner's claim succeeds, marks the record claimed, pays out its CSPR leg,
and every later attempt by the owner fails with already-claimed. -/
theorem C5_claim_behavior (s : PoolState) (caller : Addr) (wid now : Nat) :
    (s.withdrawals wid = none →
      claim_withdrawal s caller wid now = .error .notFound) ∧
    (∀ r : WithdrawalRequest, s.withdrawals wid = some r →
      (r.user ≠ caller → claim_withdrawal s caller wid now = .error .unauthorized) ∧
      (r.user = caller → r.claimed = true →
        claim_withdrawal s caller wid now = .error .alreadyClaimed) ∧
      (r.user = caller → r.claimed = false → now < r.claimable_time →
        claim_withdrawal s caller wid now = .error .stillUnbonding) ∧
      (now < r.claimable_time →
        ∀ c : Addr, (claim_withdrawal s c wid now).toOption = none) ∧
      (r.user = caller → r.claimed = false → r.claimable_time ≤ now →
        claim_withdrawal s caller wid now = .ok (setClaimed s wid r, r.cspr_amount) ∧
          ∀ now2 : Nat, claim_withdrawal (setClaimed s wid r) caller wid now2 =
            .error .alreadyClaimed)) := by
  constructor
  · intro hn
    simp only [claim_withdrawal, hn]
  · intro r hr
    refine ⟨?_, ?_, ?_, ?_, ?_⟩
    · intro hne
      simp only [claim_withdrawal, hr]
      rw [if_pos hne]
    · intro heq hcl
      simp only [claim_withdrawal, hr]
      rw [if_neg (by simp [heq]), if_pos hcl]
    · intro heq hcl hnow
      simp only [claim_withdrawal, hr]
      rw [if_neg (by simp [heq]), if_neg (by simp [hcl]), if_pos hnow]
    · intro hnow c
      simp only [claim_withdrawal, hr]
      split_ifs with a b <;> rfl
    · intro heq hcl hle
      constructor
      · simp only [claim_withdrawal, hr]
        rw [if_neg (by simp [heq]), if_neg (by simp [hcl]), if_neg (by omega)]
      · intro now2
        have hw : (setClaimed s wid r).withdrawals wid = some { r with claimed := true } := by
          simp [setClaimed]
        simp only [claim_withdrawal, hw]
        rw [if_neg (by simp [heq]), if_pos trivial]

/-- Witness for C5: the pending record is claimable exactly once at its
unlock time; a retry and an early attempt both fail. -/
theorem C5_claim_behavior_witness :
    claim_withdrawal c5Pool 7 0 50400000 = .ok (setClaimed c5Pool 0 c5Record, 100) ∧
      claim_withdrawal (setClaimed c5Pool 0 c5Record) 7 0 60000000 =
        .error .alreadyClaimed ∧
      (claim_withdrawal c5Pool 7 0 1000).toOption = none := by
  obtain ⟨hok, hsub⟩ :=
    ((C5_claim_behavior c5Pool 7 0 50400000).2 c5Record (by rfl)).2.2.2.2 rfl rfl (by decide)
  refine ⟨hok, hsub 60000000, ?_⟩
  exact ((C5_claim_behavior c5Pool 7 0 1000).2 c5Record (by rfl)).2.2.2.1 (by decide) 7

/-- C9 counterexample: depositing (1000, 1) into the running 1e9/1e9 pool
mints one LP unit; removing that unit immediately returns only 1 CSPR
unit, far below the claimed `b - 1 = 999` lower bound. -/
theorem C9_counterexample :
    add_liquidity sPool 5 1000 1 0 = .ok (c9xMid, 1) ∧
      remove_liquidity c9xMid 5 1 0 0 0 = .ok (c9xPost, 0) ∧
      c9xPost.withdrawals 0 = some
        { id := 0, user := 5, lp_burned := 1, cspr_amount := 1, token_amount := 1,
          request_time := 0, claimable_time := 50400000, claimed := false } ∧
      ¬ (1000 - 1 ≤ (1 : Nat)) :=
  ⟨by rfl, by rfl, by rfl, by norm_num⟩

/-- C9 (amended): an immediate round trip never returns more than was
deposited — the queued record's CSPR leg is at most `b` and its token leg
at most `q` (losses can exceed one unit: the locked minimum liquidity on
a first deposit, or the donated excess of an imbalanced deposit). -/
theorem C9_roundtrip_never_exceeds (s : PoolState) (caller : Addr)
    (b q minLp now : Nat) (s1 : PoolState) (lp : Nat) (s2 : PoolState)
    (wid : Nat) (r : WithdrawalRequest)
    (hcons : s.lp_total_supply = 0 → s.reserve_cspr = 0 ∧ s.reserve_token = 0)
    (hadd : add_liquidity s caller b q minLp = .ok (s1, lp))
    (hrem : remove_liquidity s1 caller lp 0 0 now = .ok (s2, wid))
    (hwd : s2.withdrawals wid = some r) :
    r.cspr_amount ≤ b ∧ r.token_amount ≤ q := by
  obtain ⟨hb0, hq0, hrc1, hrt1, hcases⟩ := add_liquidity_spec s caller b q minLp s1 lp hadd
  obtain ⟨ht1, hwid, hrec⟩ := remove_liquidity_spec s1 caller lp 0 0 now s2 wid hrem
  have hr : r =
      { id := wid, user := caller, lp_burned := lp,
        cspr_amount := lp * s1.reserve_cspr / s1.lp_total_supply,
        token_amount := lp * s1.reserve_token / s1.lp_total_supply,
        request_time := now, claimable_time := now + 14 * 60 * 60 * 1000,
        claimed := false } :=
    Option.some.inj (hwd.symm.trans hrec)
  subst hr
  dsimp only
  rcases hcases with ⟨hT0, hmin, hlp, htot⟩ | ⟨hT, hB, hQ, hle1, hle2, htot⟩
  · obtain ⟨hrc0, hrt0⟩ := hcons hT0
    have hS : s1.lp_total_supply = sqrt (b * q) := by omega
    constructor
    · rw [hrc1, hrc0, hS, hlp, Nat.zero_add]
      refine natDiv_le_of_le_mul ?_
      calc (sqrt (b * q) - s.minimum_liquidity) * b
          ≤ sqrt (b * q) * b := Nat.mul_le_mul_right b (Nat.sub_le _ _)
        _ = b * sqrt (b * q) := Nat.mul_comm _ _
    · rw [hrt1, hrt0, hS, hlp, Nat.zero_add]
      refine natDiv_le_of_le_mul ?_
      calc (sqrt (b * q) - s.minimum_liquidity) * q
          ≤ sqrt (b * q) * q := Nat.mul_le_mul_right q (Nat.sub_le _ _)
        _ = q * sqrt (b * q) := Nat.mul_comm _ _
  · constructor
    · rw [hrc1, htot]
      refine natDiv_le_of_le_mul ?_
      have k1 : lp * s.reserve_cspr ≤ b * s.lp_total_supply := by
        calc lp * s.reserve_cspr
            ≤ b * s.lp_total_supply / s.reserve_cspr * s.reserve_cspr :=
              Nat.mul_le_mul_right _ hle1
          _ ≤ b * s.lp_total_supply := Nat.div_mul_le_self _ _
      calc lp * (s.reserve_cspr + b) = lp * s.reserve_cspr + lp * b := Nat.mul_add lp _ _
        _ ≤ b * s.lp_total_supply + b * lp := Nat.add_le_add k1 (by rw [Nat.mul_comm])
        _ = b * (s.lp_total_supply + lp) := (Nat.mul_add b _ _).symm
    · rw [hrt1, htot]
      refine natDiv_le_of_le_mul ?_
      have k2 : lp * s.reserve_token ≤ q * s.lp_total_supply := by
        calc lp * s.reserve_token
            ≤ q * s.lp_total_supply / s.reserve_token * s.reserve_token :=
              Nat.mul_le_mul_right _ hle2
          _ ≤ q * s.lp_total_supply := Nat.div_mul_le_self _ _
      calc lp * (s.reserve_token + q) = lp * s.reserve_token + lp * q := Nat.mul_add lp _ _
        _ ≤ q * s.lp_total_supply + q * lp := Nat.add_le_add k2 (by rw [Nat.mul_comm])
        _ = q * (s.lp_total_supply + lp) := (Nat.mul_add q _ _).symm

/-- Witness for C9: the proportional (1e6, 1e6) round trip on the running
pool returns exactly the deposit, within the bound. -/
theorem C9_roundtrip_never_exceeds_witness :
    c9wRec.cspr_amount ≤ 1000000 ∧ c9wRec.token_amount ≤ 1000000 :=
  C9_roundtrip_never_exceeds sPool 5 1000000 1000000 0 0 c9wMid 1000000 c9wPost 0 c9wRec
    (fun h => absurd h (by decide)) (by rfl) (by rfl) (by rfl)
